import Mathlib

/-!
Shallow embedding of the Screenshot-to-Text extraction pipeline.

Strings from the JavaScript source are modelled as `List Char` (Unicode
scalar values); JavaScript's UTF-16 `length` is modelled by `jsLen`.
Each definition mirrors one function of the repository, chiefly
`src/lib/openai.ts` (response parsing, heuristics, error handling, the
retry loop, image compression), `src/lib/rateLimiter.ts` (fixed-window
rate limiting) and `src/lib/mongodb.ts` (the store adapter).
-/

namespace ScreenshotToText

/-- Characters of a string literal; all embedded text lives in `List Char`. -/
def cs (s : String) : List Char := s.data

/-- `lo ≤ c ≤ hi` on code points, the form every regex character range takes. -/
def inRange (lo hi : Nat) (c : Char) : Bool :=
  decide (lo ≤ c.toNat ∧ c.toNat ≤ hi)

/-- ASCII lowercasing of one character, as `toLowerCase` acts on ASCII text. -/
def asciiLower (c : Char) : Char :=
  if inRange 65 90 c then Char.ofNat (c.toNat + 32) else c

/-- Case-insensitive character comparison, for regexes carrying the `i` flag. -/
def ciEq (a b : Char) : Bool := asciiLower a == asciiLower b

/-- Membership in the ECMAScript whitespace class `\s` (also used by `trim`). -/
def isJsWs (c : Char) : Bool :=
  decide (c.toNat = 9 ∨ c.toNat = 10 ∨ c.toNat = 11 ∨ c.toNat = 12 ∨
    c.toNat = 13 ∨ c.toNat = 32 ∨ c.toNat = 0xa0 ∨ c.toNat = 0x1680 ∨
    (0x2000 ≤ c.toNat ∧ c.toNat ≤ 0x200a) ∨ c.toNat = 0x2028 ∨
    c.toNat = 0x2029 ∨ c.toNat = 0x202f ∨ c.toNat = 0x205f ∨
    c.toNat = 0x3000 ∨ c.toNat = 0xfeff)

/-- The regex class `\d`. -/
def isDigitCh (c : Char) : Bool := inRange 48 57 c

/-- The regex class `[a-z]` under the `i` flag: any ASCII letter. -/
def isAsciiAlpha (c : Char) : Bool := inRange 97 122 c || inRange 65 90 c

/-- The regex class `\w`: ASCII letters, digits and underscore. -/
def isWordChar (c : Char) : Bool := isAsciiAlpha c || isDigitCh c || c == '_'

/-- Hexadecimal digit, the alphabet of a well-formed ObjectId string. -/
def isHexDigit (c : Char) : Bool :=
  isDigitCh c || inRange 97 102 c || inRange 65 70 c

/-- JavaScript string length: UTF-16 code units, two per astral code point. -/
def jsLen : List Char → Nat
  | [] => 0
  | c :: rest => (if 0x10000 ≤ c.toNat then 2 else 1) + jsLen rest

/-- Does `pat` occur (case-sensitively) at the head of the text? -/
def leadsWith : List Char → List Char → Bool
  | [], _ => true
  | _ :: _, [] => false
  | p :: ps, c :: rest => p == c && leadsWith ps rest

/-- JavaScript `String.prototype.includes`: `pat` occurs somewhere in the text. -/
def occursIn (pat : List Char) : List Char → Bool
  | [] => leadsWith pat []
  | c :: rest => leadsWith pat (c :: rest) || occursIn pat rest

/-- Match `pat` case-insensitively at the head, returning the remainder. -/
def stripCI : List Char → List Char → Option (List Char)
  | [], l => some l
  | _ :: _, [] => none
  | p :: ps, c :: rest => if ciEq p c then stripCI ps rest else none

/-- Case-insensitive occurrence of `pat` somewhere in the text. -/
def occursCI (pat : List Char) : List Char → Bool
  | [] => (stripCI pat []).isSome
  | c :: rest => (stripCI pat (c :: rest)).isSome || occursCI pat rest

/-- Leftmost-match scan: try `tryAt` at each position, left to right; on the
first success return the unscanned text before the match, the captured value
and the text after the matched segment. -/
def findSeg {α : Type} (tryAt : List Char → Option (α × List Char)) :
    List Char → Option (List Char × α × List Char)
  | [] => (tryAt []).map fun ar => ([], ar.1, ar.2)
  | c :: rest =>
    match tryAt (c :: rest) with
    | some (a, r) => some ([], a, r)
    | none => (findSeg tryAt rest).map fun par => (c :: par.1, par.2.1, par.2.2)

/-- JavaScript `trimEnd`: drop trailing `\s` characters. -/
def trimEndJS (l : List Char) : List Char :=
  (l.reverse.dropWhile isJsWs).reverse

/-- JavaScript `String.prototype.trim`. -/
def trimJS (l : List Char) : List Char :=
  trimEndJS (l.dropWhile isJsWs)

/-- Value of a digit run, most significant first. -/
def digitsToNat (l : List Char) : Nat :=
  l.foldl (fun n c => 10 * n + (c.toNat - 48)) 0

/-- `parseFloat` on a captured group `digits(.digits)?`: integer part plus
decimal fraction. -/
def groupToRat (g : List Char × List Char) : ℚ :=
  (digitsToNat g.1 : ℚ) + (digitsToNat g.2 : ℚ) / (10 ^ g.2.length)

/-! ## Response parser (`src/lib/openai.ts`, `parseExtractionResponse`) -/

/-- Attempt the pattern `LANGUAGE:\s*([a-z]{2,3})\s*` (flag `i`) at the head of
the text: the label, then greedy whitespace, then greedily two or three ASCII
letters, then the trailing whitespace the replacement also consumes.  Returns
the captured letters and the text after the whole matched segment.  The `match`
regex of the source lacks the trailing `\s*`, which affects neither
matchability nor the capture, so one matcher serves both `match` and
`replace`. -/
def tryLangAt (l : List Char) : Option (List Char × List Char) :=
  match stripCI (cs "language:") l with
  | none => none
  | some r1 =>
    let r2 := r1.dropWhile isJsWs
    let g := (r2.takeWhile isAsciiAlpha).take 3
    if 2 ≤ g.length then
      some (g, (r2.drop g.length).dropWhile isJsWs)
    else none

/-- Attempt the pattern `CONFIDENCE:\s*(\d+(?:\.\d+)?)\s*` (flag `i`) at the
head of the text; the capture is the pair (integer digits, fraction digits). -/
def tryConfAt (l : List Char) : Option ((List Char × List Char) × List Char) :=
  match stripCI (cs "confidence:") l with
  | none => none
  | some r1 =>
    let r2 := r1.dropWhile isJsWs
    let ds := r2.takeWhile isDigitCh
    if ds.isEmpty then none
    else
      match r2.drop ds.length with
      | '.' :: r4 =>
        let fs := r4.takeWhile isDigitCh
        if fs.isEmpty then some ((ds, []), ('.' :: r4).dropWhile isJsWs)
        else some ((ds, fs), (r4.drop fs.length).dropWhile isJsWs)
      | r3 => some ((ds, []), r3.dropWhile isJsWs)

/-- First match of the language marker pattern in the text. -/
def findLang (l : List Char) : Option (List Char × List Char × List Char) :=
  findSeg tryLangAt l

/-- First match of the confidence marker pattern in the text. -/
def findConf (l : List Char) :
    Option (List Char × (List Char × List Char) × List Char) :=
  findSeg tryConfAt l

/-- `detectLanguageFromText`: scan for the script ranges in the source's fixed
order, returning the first language whose range has a member. -/
def detectLanguageFromText (text : List Char) : List Char :=
  if text.any (inRange 0x4e00 0x9fff) then cs "zh"
  else if text.any (fun c => inRange 0x3040 0x309f c || inRange 0x30a0 0x30ff c)
    then cs "ja"
  else if text.any (inRange 0xac00 0xd7a3) then cs "ko"
  else if text.any (inRange 0x600 0x6ff) then cs "ar"
  else if text.any (inRange 0x400 0x4ff) then cs "ru"
  else if text.any (inRange 0xe00 0xe7f) then cs "th"
  else if text.any (inRange 0x590 0x5ff) then cs "he"
  else cs "en"

/-- The "plausible text" character class of the garbled-text regex:
`\w`, `\s`, Latin-1/Latin Extended-A, CJK, kana, Hangul and the listed
punctuation. -/
def plausibleChar (c : Char) : Bool :=
  isWordChar c || isJsWs c || inRange 0xc0 0x17f c ||
  inRange 0x4e00 0x9fff c || inRange 0x3040 0x30ff c ||
  inRange 0xac00 0xd7a3 c ||
  ['.', ',', '!', '?', ';', ':', '(', ')', '[', ']', '\x7b', '\x7d',
    '-', '\x27', '\x22', '/', '\\'].contains c

/-- One `if (cond) confidence += d` statement of `estimateConfidence`. -/
def addIf (b : Bool) (d acc : Int) : Int := if b then acc + d else acc

/-- `Math.min(100, Math.max(0, x))`. -/
def intClamp (x : Int) : Int := min 100 (max 0 x)

/-- `estimateConfidence`: base 80, length and structure bonuses, garbled-text
penalty, clamped to [0, 100]; empty text scores 0.  Each `addIf` renders one
conditional `confidence +=` statement of the source, innermost first. -/
def estimateConfidence (text : List Char) : Int :=
  if text.isEmpty then 0
  else
    intClamp
      (addIf (text.any (fun c => !plausibleChar c) && decide (jsLen text < 20))
        (-10)
      (addIf (text.any (['.', ',', '!', '?', ';', ':'].contains ·)) 3
      (addIf (text.any isDigitCh) 2
      (addIf (text.any isAsciiAlpha && text.any isJsWs) 5
      (addIf (decide (100 < jsLen text)) 5
      (addIf (decide (50 < jsLen text)) 5
      (addIf (decide (10 < jsLen text)) 5 80)))))))

/-- Structured result of `parseExtractionResponse`. -/
structure ParsedResponse where
  extractedText : List Char
  language : List Char
  confidence : ℚ
deriving DecidableEq, Repr

/-- `parseExtractionResponse`: match both marker patterns against the raw
response; remove the first occurrence of each matched pattern (the language
one from the original text, the confidence one from the already-reduced
text), trim, and fall back to the heuristics for any absent marker. -/
def parseExtractionResponse (text : List Char) : ParsedResponse :=
  let langM := findLang text
  let confM := findConf text
  let e1 := match langM with
    | some (p, _, r) => p ++ r
    | none => text
  let e2 := match confM with
    | some _ =>
      match findConf e1 with
      | some (p, _, r) => p ++ r
      | none => e1
    | none => e1
  let extractedText := trimJS e2
  let language := match langM with
    | some (_, g, _) => g.map asciiLower
    | none => detectLanguageFromText extractedText
  let confidence : ℚ := match confM with
    | some (_, g, _) => groupToRat g
    | none => ((estimateConfidence extractedText : Int) : ℚ)
  ⟨extractedText, language, confidence⟩

/-! ## MIME validation (`validateImageFormat`, `SUPPORTED_MIME_TYPES`) -/

/-- The supported MIME type list of `src/lib/openai.ts`. -/
def SUPPORTED_MIME_TYPES : List (List Char) :=
  [cs "image/png", cs "image/jpeg", cs "image/jpg",
    cs "image/webp", cs "image/heic", cs "image/heif"]

/-- `s.split("/")[1]`: the text between the first slash and the next. -/
def splitSecond (l : List Char) : List Char :=
  (((l.dropWhile (· ≠ '/')).drop 1).takeWhile (· ≠ '/'))

/-- `validateImageFormat`: some supported type's subtype occurs as a substring
of the lowercased MIME string. -/
def validateImageFormat (mimeType : List Char) : Bool :=
  SUPPORTED_MIME_TYPES.any fun t =>
    occursIn (splitSecond t) (mimeType.map asciiLower)

/-- The characterization the claim gives of `validateImageFormat`: the
lowercased MIME string contains one of the six subtype substrings. -/
def validateImageFormatSpec (mimeType : List Char) : Bool :=
  [cs "png", cs "jpeg", cs "jpg", cs "webp", cs "heic", cs "heif"].any
    fun p => occursIn p (mimeType.map asciiLower)

/-! ## Error classification and the retry loop (`handleApiError`,
`extractTextFromImage` lines 454-524) -/

/-- An upstream failure: an `OpenAI.APIError` carrying a status and an
optional `retry-after` header, or a plain `Error` with only a message. -/
inductive UpstreamError where
  | api (status : Nat) (retryAfter : Option Nat) (message : List Char)
  | plain (message : List Char)
deriving DecidableEq, Repr

/-- Digits of a natural number, for interpolated error messages. -/
def natToChars (n : Nat) : List Char := (Nat.repr n).data

/-- `handleApiError`: map an upstream failure and the retry count to the
human-readable message of the source. -/
def handleApiError (e : UpstreamError) (retries : Nat) : List Char :=
  match e with
  | .api status ra msg =>
    if status = 429 then
      cs "Rate limit exceeded. Please try again" ++
        (match ra with
          | some n => cs " after " ++ natToChars n ++ cs " seconds"
          | none => cs " later") ++ cs "."
    else if status = 401 then
      cs "Invalid OpenAI API key. Please check your configuration."
    else if status = 402 then
      cs "Insufficient OpenAI API quota. Please check your account."
    else if status = 404 then
      cs "OpenAI model not found. Please check the model name."
    else if 500 ≤ status then
      cs "OpenAI server error. Please try again" ++
        (if 0 < retries then cs " (retry " ++ natToChars retries ++ cs ")"
          else []) ++ cs "."
    else if msg.isEmpty then cs "OpenAI API error occurred." else msg
  | .plain msg => msg

/-- The result record built by `extractTextFromImage` on success. -/
structure ExtractionResult where
  text : List Char
  language : List Char
  confidence : ℚ
  model : List Char
  promptTokens : Nat
  completionTokens : Nat
deriving DecidableEq, Repr

/-- What one call to the upstream chat-completion API does: succeed with a
response body, the model actually used and token usage, or fail. -/
inductive AttemptOutcome where
  | success (fullText modelUsed : List Char)
      (promptTokens completionTokens : Nat)
  | failure (e : UpstreamError)

/-- Statuses the loop treats as terminal: 401, 402 and 404. -/
def isTerminalError : UpstreamError → Bool
  | .api s _ _ => s == 401 || s == 402 || s == 404
  | .plain _ => false

/-- Is the failure an upstream rate-limit (status 429)? -/
def isRateLimited : UpstreamError → Bool
  | .api s _ _ => s == 429
  | .plain _ => false

/-- Wait before retrying a 429: the `retry-after` hint in milliseconds when
present, else exponential backoff. -/
def rateLimitDelay (e : UpstreamError) (attempt : Nat) : Nat :=
  match e with
  | .api _ (some ra) _ => ra * 1000
  | _ => 2 ^ attempt * 1000

/-- The delay the loop sleeps after a retryable failure at a given attempt:
the 429 branch consults the `retry-after` hint, every other branch sleeps
the exponential backoff. -/
def attemptDelay (e : UpstreamError) (attempt : Nat) : Nat :=
  if isRateLimited e then rateLimitDelay e attempt else 2 ^ attempt * 1000

/-- Build the `ExtractionResult` the source returns on success: the parsed
response merged with the model identifier and token usage. -/
def successResult (fullText modelUsed : List Char)
    (promptTokens completionTokens : Nat) : ExtractionResult :=
  let p := parseExtractionResponse fullText
  ⟨p.extractedText, p.language, p.confidence, modelUsed,
    promptTokens, completionTokens⟩

instance {ε α : Type} [DecidableEq ε] [DecidableEq α] :
    DecidableEq (Except ε α) := fun a b =>
  match a, b with
  | .error x, .error y =>
    if h : x = y then isTrue (by rw [h])
    else isFalse (fun hh => h (Except.error.inj hh))
  | .ok x, .ok y =>
    if h : x = y then isTrue (by rw [h])
    else isFalse (fun hh => h (Except.ok.inj hh))
  | .error _, .ok _ => isFalse (fun hh => Except.noConfusion hh)
  | .ok _, .error _ => isFalse (fun hh => Except.noConfusion hh)

/-- Observable outcome of the retry loop: the returned value or thrown
message, the backoff delays slept (in order, in milliseconds), and how many
attempts were made. -/
structure LoopOutcome where
  result : Except (List Char) ExtractionResult
  delays : List Nat
  attempts : Nat
deriving DecidableEq, Repr

/-- One step of the `for (attempt = 0; attempt < maxRetries; ...)` loop of
`extractTextFromImage`, with `maxRetries = 3`; `fuel` is the number of loop
iterations still available and `lastErr` the last caught error. -/
def extractLoopGo (f : Nat → AttemptOutcome) :
    Nat → Nat → Option UpstreamError → LoopOutcome
  | 0, _, lastErr =>
    ⟨.error (match lastErr with
      | some e => handleApiError e 3
      | none => cs "Failed to extract text from image after multiple attempts"),
      [], 0⟩
  | fuel + 1, attempt, _ =>
    match f attempt with
    | .success t m pt ct => ⟨.ok (successResult t m pt ct), [], 1⟩
    | .failure e =>
      if isTerminalError e then ⟨.error (handleApiError e 0), [], 1⟩
      else if isRateLimited e && decide (attempt < 2) then
        let r := extractLoopGo f fuel (attempt + 1) (some e)
        ⟨r.result, rateLimitDelay e attempt :: r.delays, r.attempts + 1⟩
      else if attempt = 2 then ⟨.error (handleApiError e attempt), [], 1⟩
      else
        let r := extractLoopGo f fuel (attempt + 1) (some e)
        ⟨r.result, 2 ^ attempt * 1000 :: r.delays, r.attempts + 1⟩

/-- The retry loop of `extractTextFromImage`: up to 3 attempts against the
upstream, starting at attempt 0 with no recorded error. -/
def extractTextRetryLoop (f : Nat → AttemptOutcome) : LoopOutcome :=
  extractLoopGo f 3 0 none

/-! ## Image normalization (`compressImageIfNeeded`)

The `sharp` library is external: its calls are modelled by an `ImageOps`
oracle whose operations may fail (`Except`), mirroring the `try`/`catch`
structure of the source.  The pipeline an encode call would run is recorded
as an `EncodeSpec`, and every encode call is logged, so "how many
compression passes ran" is observable. -/

/-- An image buffer: its bytes. -/
abbrev ImgBuffer : Type := List Nat

/-- Byte length of a buffer, JavaScript `buffer.length`. -/
def bufLen (b : ImgBuffer) : Nat := b.length

/-- `sharp(...).metadata()`: optional width and height. -/
structure ImgMeta where
  width : Option Nat
  height : Option Nat
deriving DecidableEq, Repr

/-- The encoder a pipeline ends with. -/
inductive ImgFormat where
  | jpeg
  | webp
deriving DecidableEq, Repr

/-- Description of one `sharp(buffer)...toBuffer()` pipeline: whether a
`resize(maxDim, maxDim, fit: inside, withoutEnlargement)` step is present,
which encoder is applied, and at which quality. -/
structure EncodeSpec where
  resized : Bool
  maxDim : Nat
  format : Option ImgFormat
  quality : Nat
deriving DecidableEq, Repr

/-- The image-processing oracle standing for `sharp`. -/
structure ImageOps where
  meta : ImgBuffer → Except (List Char) ImgMeta
  encode : ImgBuffer → EncodeSpec → Except (List Char) ImgBuffer

/-- What `compressImageIfNeeded` resolves to. -/
structure CompressOut where
  buffer : ImgBuffer
  mimeType : List Char
  width : Option Nat
  height : Option Nat
deriving DecidableEq, Repr

/-- `MAX_IMAGE_SIZE` (20MB). -/
def MAX_IMAGE_SIZE : Nat := 20 * 1024 * 1024

/-- `MAX_IMAGE_DIMENSION`. -/
def MAX_IMAGE_DIMENSION : Nat := 2048

/-- JavaScript `options.x || default`: the default replaces both an absent
and a zero (falsy) value. -/
def jsOr (v : Option Nat) (d : Nat) : Nat :=
  match v with
  | none => d
  | some 0 => d
  | some n => n

/-- The `ImageProcessingOptions` record. -/
structure ImageProcessingOptions where
  maxSize : Option Nat := none
  maxDimension : Option Nat := none
  quality : Option Nat := none

/-- Format-and-MIME selection of the first compression pass: large PNGs and
HEIC/HEIF transcode to JPEG, WebP and JPEG re-encode in place, anything else
passes through the pipeline with no encoder. -/
def pass1Format (mimeType : List Char) (bufSize : Nat) :
    Option ImgFormat × List Char :=
  if mimeType = cs "image/png" ∧ 500 * 1024 < bufSize then
    (some .jpeg, cs "image/jpeg")
  else if occursIn (cs "heic") mimeType || occursIn (cs "heif") mimeType then
    (some .jpeg, cs "image/jpeg")
  else if mimeType = cs "image/webp" then (some .webp, mimeType)
  else if mimeType = cs "image/jpeg" ∨ mimeType = cs "image/jpg" then
    (some .jpeg, mimeType)
  else (none, mimeType)

/-- The first compression pass's pipeline. -/
def pass1Spec (mimeType : List Char) (bufSize origW origH maxDim q : Nat) :
    EncodeSpec :=
  ⟨decide (maxDim < origW) || decide (maxDim < origH), maxDim,
    (pass1Format mimeType bufSize).1, q⟩

/-- The second compression pass's pipeline: always resized, encoder chosen
from the output MIME type, quality lowered by 20 with a floor of 50. -/
def pass2Spec (outMime : List Char) (maxDim q : Nat) : EncodeSpec :=
  ⟨true, maxDim,
    some (if outMime = cs "image/jpeg" ∨ outMime = cs "image/jpg" then
      ImgFormat.jpeg else ImgFormat.webp),
    max 50 (q - 20)⟩

/-- The body of the `try` block of `compressImageIfNeeded` (lines 175-235):
metadata, first pass, conditional second pass, final metadata.  Besides the
`Except` outcome it returns the log of encode pipelines that ran. -/
def compressSteps (ops : ImageOps) (buffer : ImgBuffer) (mimeType : List Char)
    (maxSize maxDim q : Nat) : Except (List Char) CompressOut × List EncodeSpec :=
  match ops.meta buffer with
  | .error e => (.error e, [])
  | .ok md =>
    let origW := md.width.getD 0
    let origH := md.height.getD 0
    let outMime := (pass1Format mimeType (bufLen buffer)).2
    let spec1 := pass1Spec mimeType (bufLen buffer) origW origH maxDim q
    match ops.encode buffer spec1 with
    | .error e => (.error e, [spec1])
    | .ok buf1 =>
      if maxSize < bufLen buf1 ∧ 50 < q then
        let spec2 := pass2Spec outMime maxDim q
        match ops.encode buffer spec2 with
        | .error e => (.error e, [spec1, spec2])
        | .ok buf2 =>
          match ops.meta buf2 with
          | .error e => (.error e, [spec1, spec2])
          | .ok fm => (.ok ⟨buf2, outMime, fm.width, fm.height⟩, [spec1, spec2])
      else
        match ops.meta buf1 with
        | .error e => (.error e, [spec1])
        | .ok fm => (.ok ⟨buf1, outMime, fm.width, fm.height⟩, [spec1])

/-- `compressImageIfNeeded`: small in-bound images return as-is; a metadata
failure on the small path, and any failure inside the compression `try`
block, are caught and degrade to the original buffer and MIME type. -/
def compressImageIfNeeded (ops : ImageOps) (buffer : ImgBuffer)
    (mimeType : List Char) (options : ImageProcessingOptions) :
    CompressOut × List EncodeSpec :=
  let maxSize := jsOr options.maxSize MAX_IMAGE_SIZE
  let maxDim := jsOr options.maxDimension MAX_IMAGE_DIMENSION
  let q := jsOr options.quality 85
  let rest :=
    match compressSteps ops buffer mimeType maxSize maxDim q with
    | (.ok r, tr) => (r, tr)
    | (.error _, tr) => (⟨buffer, mimeType, none, none⟩, tr)
  if bufLen buffer ≤ maxSize then
    match ops.meta buffer with
    | .ok md =>
      let w := md.width.getD 0
      let h := md.height.getD 0
      if w ≠ 0 ∧ h ≠ 0 ∧ w ≤ maxDim ∧ h ≤ maxDim then
        (⟨buffer, mimeType, md.width, md.height⟩, [])
      else rest
    | .error _ => (⟨buffer, mimeType, none, none⟩, [])
  else rest

/-! ## Rate limiter (`src/lib/rateLimiter.ts`, `checkRateLimit`) -/

/-- `RATE_LIMIT_WINDOW_MS`. -/
def RATE_LIMIT_WINDOW_MS : Nat := 60 * 1000

/-- `RATE_LIMIT_MAX_REQUESTS`. -/
def RATE_LIMIT_MAX_REQUESTS : Nat := 10

/-- Per-identity rate-limit state: request count and window reset time. -/
structure RateLimitEntry where
  count : Nat
  resetTime : Nat
deriving DecidableEq, Repr

/-- What `checkRateLimit` returns to its caller. -/
structure RateLimitResult where
  allowed : Bool
  remaining : Nat
  resetTime : Nat
deriving DecidableEq, Repr

/-- `checkRateLimit` for a single identity: the store's entry for that
identity becomes explicit state, `now` the value of `Date.now()`. -/
def checkRateLimit (now : Nat) (entry : Option RateLimitEntry) :
    Option RateLimitEntry × RateLimitResult :=
  match entry with
  | none =>
    (some ⟨1, now + RATE_LIMIT_WINDOW_MS⟩,
      ⟨true, RATE_LIMIT_MAX_REQUESTS - 1, now + RATE_LIMIT_WINDOW_MS⟩)
  | some e =>
    if e.resetTime < now then
      (some ⟨1, now + RATE_LIMIT_WINDOW_MS⟩,
        ⟨true, RATE_LIMIT_MAX_REQUESTS - 1, now + RATE_LIMIT_WINDOW_MS⟩)
    else if RATE_LIMIT_MAX_REQUESTS ≤ e.count then
      (some e, ⟨false, 0, e.resetTime⟩)
    else
      (some ⟨e.count + 1, e.resetTime⟩,
        ⟨true, RATE_LIMIT_MAX_REQUESTS - (e.count + 1), e.resetTime⟩)

/-- Run a sequence of `checkRateLimit` calls for one identity at the given
times, threading the stored entry; returns the final entry and the results
in call order. -/
def rlRun (ts : List Nat) (s : Option RateLimitEntry) :
    Option RateLimitEntry × List RateLimitResult :=
  match ts with
  | [] => (s, [])
  | t :: rest =>
    let step := checkRateLimit t s
    let tail := rlRun rest step.1
    (tail.1, step.2 :: tail.2)

/-! ## Store adapter (`src/lib/mongodb.ts`, `deleteScreenshot`) -/

/-- A stored screenshot record; only the identifier matters to deletion, the
payload stands for the remaining fields. -/
structure ScreenshotRec where
  id : List Char
  payload : Nat
deriving DecidableEq, Repr

/-- A string the `ObjectId` constructor accepts: 24 hexadecimal characters.
Any other string makes the constructor throw, which `deleteScreenshot`
catches. -/
def isValidObjectId (id : List Char) : Bool :=
  id.length == 24 && id.all isHexDigit

/-- `deleteOne`: remove the first record with the given identifier. -/
def deleteFirstById (id : List Char) : List ScreenshotRec → List ScreenshotRec
  | [] => []
  | r :: rest => if r.id = id then rest else r :: deleteFirstById id rest

/-- `deleteScreenshot`: construct the `ObjectId` (returning `false` when the
identifier is malformed), delete at most one matching record, and report
whether `deletedCount > 0`.  The collection is modelled as a list. -/
def deleteScreenshot (id : List Char) (coll : List ScreenshotRec) :
    List ScreenshotRec × Bool :=
  if isValidObjectId id then
    (deleteFirstById id coll, coll.any (fun r => r.id == id))
  else
    (coll, false)

/-! ## The spec's reading of the confidence heuristic -/

/-- The confidence formula as the specification words it: base 80, +5 per
length threshold exceeded, +5 for letters together with whitespace, +2 for
digits, +3 for punctuation, −10 for a short garbled text, clamped to
[0, 100], with empty text scoring 0. -/
def estimateConfidenceSpec (text : List Char) : Int :=
  if text.isEmpty then 0
  else
    let base : Int := 80
    let lengthBonus : Int :=
      (if 10 < jsLen text then 5 else 0) + (if 50 < jsLen text then 5 else 0) +
        (if 100 < jsLen text then 5 else 0)
    let structureBonus : Int :=
      (if text.any isAsciiAlpha && text.any isJsWs then 5 else 0) +
        (if text.any isDigitCh then 2 else 0) +
        (if text.any (['.', ',', '!', '?', ';', ':'].contains ·) then 3 else 0)
    let garbledPenalty : Int :=
      if text.any (fun c => !plausibleChar c) && decide (jsLen text < 20) then
        10 else 0
    min 100 (max 0 (base + lengthBonus + structureBonus - garbledPenalty))

/-! ## Helper lemmas -/

theorem intClamp_nonneg (x : Int) : 0 ≤ intClamp x := by
  unfold intClamp
  simp only [min_def, max_def]
  split_ifs <;> omega

theorem intClamp_le (x : Int) : intClamp x ≤ 100 := by
  unfold intClamp
  simp only [min_def, max_def]
  split_ifs <;> omega

theorem estimateConfidence_nonneg (text : List Char) :
    0 ≤ estimateConfidence text := by
  unfold estimateConfidence
  split
  · omega
  · exact intClamp_nonneg _

theorem estimateConfidence_le (text : List Char) :
    estimateConfidence text ≤ 100 := by
  unfold estimateConfidence
  split
  · omega
  · exact intClamp_le _

theorem deleteFirstById_no_match (id : List Char) (coll : List ScreenshotRec)
    (h : ∀ r ∈ coll, r.id ≠ id) : deleteFirstById id coll = coll := by
  induction coll with
  | nil => rfl
  | cons r rest ih =>
    have hr : r.id ≠ id := h r (by simp)
    simp only [deleteFirstById, if_neg hr]
    rw [ih (fun x hx => h x (by simp [hx]))]

/-! ## Claim theorems -/

/-- C10: `validateImageFormat` holds exactly when the lowercased MIME string
contains one of the substrings png, jpeg, jpg, webp, heic, heif; so strings
outside the supported-type list, such as `application/fake-png` and
`text/webpage`, are accepted. -/
theorem validateImageFormat_substring_characterization :
    (∀ m : List Char, validateImageFormat m = validateImageFormatSpec m) ∧
    validateImageFormat (cs "application/fake-png") = true ∧
    validateImageFormat (cs "text/webpage") = true ∧
    cs "application/fake-png" ∉ SUPPORTED_MIME_TYPES ∧
    cs "text/webpage" ∉ SUPPORTED_MIME_TYPES :=
  ⟨fun _ => rfl, by decide, by decide, by decide, by decide⟩

/-- C7: the heuristic language detector follows the fixed precedence CJK,
Hiragana/Katakana, Hangul, Arabic, Cyrillic, Thai, Hebrew, returning the
first matching script's code; any CJK ideograph forces `zh` (in particular
on text that also contains Cyrillic), and text matching no range yields
`en`. -/
theorem detectLanguageFromText_precedence :
    ∀ text : List Char,
      (text.any (inRange 0x4e00 0x9fff) = true →
        detectLanguageFromText text = cs "zh") ∧
      (text.any (inRange 0x4e00 0x9fff) = true →
        text.any (inRange 0x400 0x4ff) = true →
        detectLanguageFromText text = cs "zh") ∧
      (text.any (inRange 0x4e00 0x9fff) = false →
        text.any (fun c => inRange 0x3040 0x309f c || inRange 0x30a0 0x30ff c)
          = true →
        detectLanguageFromText text = cs "ja") ∧
      (text.any (inRange 0x4e00 0x9fff) = false →
        text.any (fun c => inRange 0x3040 0x309f c || inRange 0x30a0 0x30ff c)
          = false →
        text.any (inRange 0xac00 0xd7a3) = true →
        detectLanguageFromText text = cs "ko") ∧
      (text.any (inRange 0x4e00 0x9fff) = false →
        text.any (fun c => inRange 0x3040 0x309f c || inRange 0x30a0 0x30ff c)
          = false →
        text.any (inRange 0xac00 0xd7a3) = false →
        text.any (inRange 0x600 0x6ff) = true →
        detectLanguageFromText text = cs "ar") ∧
      (text.any (inRange 0x4e00 0x9fff) = false →
        text.any (fun c => inRange 0x3040 0x309f c || inRange 0x30a0 0x30ff c)
          = false →
        text.any (inRange 0xac00 0xd7a3) = false →
        text.any (inRange 0x600 0x6ff) = false →
        text.any (inRange 0x400 0x4ff) = true →
        detectLanguageFromText text = cs "ru") ∧
      (text.any (inRange 0x4e00 0x9fff) = false →
        text.any (fun c => inRange 0x3040 0x309f c || inRange 0x30a0 0x30ff c)
          = false →
        text.any (inRange 0xac00 0xd7a3) = false →
        text.any (inRange 0x600 0x6ff) = false →
        text.any (inRange 0x400 0x4ff) = false →
        text.any (inRange 0xe00 0xe7f) = true →
        detectLanguageFromText text = cs "th") ∧
      (text.any (inRange 0x4e00 0x9fff) = false →
        text.any (fun c => inRange 0x3040 0x309f c || inRange 0x30a0 0x30ff c)
          = false →
        text.any (inRange 0xac00 0xd7a3) = false →
        text.any (inRange 0x600 0x6ff) = false →
        text.any (inRange 0x400 0x4ff) = false →
        text.any (inRange 0xe00 0xe7f) = false →
        text.any (inRange 0x590 0x5ff) = true →
        detectLanguageFromText text = cs "he") ∧
      (text.any (inRange 0x4e00 0x9fff) = false →
        text.any (fun c => inRange 0x3040 0x309f c || inRange 0x30a0 0x30ff c)
          = false →
        text.any (inRange 0xac00 0xd7a3) = false →
        text.any (inRange 0x600 0x6ff) = false →
        text.any (inRange 0x400 0x4ff) = false →
        text.any (inRange 0xe00 0xe7f) = false →
        text.any (inRange 0x590 0x5ff) = false →
        detectLanguageFromText text = cs "en") := by
  intro text
  refine ⟨?_, ?_, ?_, ?_, ?_, ?_, ?_, ?_, ?_⟩
  · intro h1
    simp only [detectLanguageFromText, h1]
    simp
  · intro h1 _
    simp only [detectLanguageFromText, h1]
    simp
  · intro h1 h2
    simp only [detectLanguageFromText, h1, h2]
    simp
  · intro h1 h2 h3
    simp only [detectLanguageFromText, h1, h2, h3]
    simp
  · intro h1 h2 h3 h4
    simp only [detectLanguageFromText, h1, h2, h3, h4]
    simp
  · intro h1 h2 h3 h4 h5
    simp only [detectLanguageFromText, h1, h2, h3, h4, h5]
    simp
  · intro h1 h2 h3 h4 h5 h6
    simp only [detectLanguageFromText, h1, h2, h3, h4, h5, h6]
    simp
  · intro h1 h2 h3 h4 h5 h6 h7
    simp only [detectLanguageFromText, h1, h2, h3, h4, h5, h6, h7]
    simp
  · intro h1 h2 h3 h4 h5 h6 h7
    simp only [detectLanguageFromText, h1, h2, h3, h4, h5, h6, h7]
    simp

/-- Witness for C7: a text holding both a CJK ideograph and Cyrillic detects
as `zh`; a plain ASCII text detects as `en`. -/
theorem detectLanguageFromText_precedence_witness :
    detectLanguageFromText (cs "你Привет") = cs "zh" ∧
    detectLanguageFromText (cs "plain ascii") = cs "en" :=
  ⟨(detectLanguageFromText_precedence (cs "你Привет")).2.1 (by decide)
      (by decide),
    (detectLanguageFromText_precedence (cs "plain ascii")).2.2.2.2.2.2.2.2
      (by decide) (by decide) (by decide) (by decide) (by decide) (by decide)
      (by decide)⟩

set_option maxHeartbeats 2000000 in
/-- C8: the heuristic confidence estimator always lands in [0, 100], returns
exactly 0 on the empty string, and equals the spec's scoring formula (base
80, the three length bonuses, the structure bonuses, the short-garbled
penalty, clamped). -/
theorem estimateConfidence_spec_correct :
    ∀ text : List Char,
      0 ≤ estimateConfidence text ∧ estimateConfidence text ≤ 100 ∧
      (text = [] → estimateConfidence text = 0) ∧
      estimateConfidence text = estimateConfidenceSpec text := by
  intro text
  refine ⟨estimateConfidence_nonneg text, estimateConfidence_le text,
    fun h => by subst h; rfl, ?_⟩
  unfold estimateConfidence estimateConfidenceSpec
  split
  · rfl
  · unfold intClamp
    congr 2
    unfold addIf
    simp only [decide_eq_true_eq]
    split_ifs <;> omega

/-- Witness for C8: the estimator evaluated at the empty string and one
concrete text. -/
theorem estimateConfidence_spec_correct_witness :
    estimateConfidence [] = 0 ∧ 0 ≤ estimateConfidence (cs "Hello world.") :=
  ⟨(estimateConfidence_spec_correct []).2.2.1 rfl,
    (estimateConfidence_spec_correct (cs "Hello world.")).1⟩

/-- C9: `deleteScreenshot` answers `(unchanged collection, false)` both for a
malformed identifier (the `ObjectId` constructor's failure is caught) and
for a well-formed identifier matching no stored record; being a total
function, it throws in neither case. -/
theorem deleteScreenshot_not_found :
    ∀ (id : List Char) (coll : List ScreenshotRec),
      (isValidObjectId id = false → deleteScreenshot id coll = (coll, false)) ∧
      ((∀ r ∈ coll, r.id ≠ id) → deleteScreenshot id coll = (coll, false)) := by
  intro id coll
  constructor
  · intro h
    simp [deleteScreenshot, h]
  · intro h
    unfold deleteScreenshot
    split
    · rw [deleteFirstById_no_match id coll h]
      have : coll.any (fun r => r.id == id) = false := by
        simp only [List.any_eq_false]
        intro r hr
        simpa using h r hr
      rw [this]
    · rfl

/-- Witness for C9: a malformed identifier, and a valid 24-hex identifier
absent from a nonempty collection. -/
theorem deleteScreenshot_not_found_witness :
    deleteScreenshot (cs "not-an-id") [⟨cs "0123456789abcdef01234567", 1⟩] =
      ([⟨cs "0123456789abcdef01234567", 1⟩], false) ∧
    deleteScreenshot (cs "ffffffffffffffffffffffff")
        [⟨cs "0123456789abcdef01234567", 1⟩] =
      ([⟨cs "0123456789abcdef01234567", 1⟩], false) :=
  ⟨(deleteScreenshot_not_found (cs "not-an-id")
      [⟨cs "0123456789abcdef01234567", 1⟩]).1 (by decide),
    (deleteScreenshot_not_found (cs "ffffffffffffffffffffffff")
      [⟨cs "0123456789abcdef01234567", 1⟩]).2 (by decide)⟩

theorem checkRateLimit_fresh (now : Nat) :
    checkRateLimit now none =
      (some ⟨1, now + 60000⟩, ⟨true, 9, now + 60000⟩) := rfl

theorem checkRateLimit_active (now r k : Nat) (h1 : now ≤ r) (h2 : k < 10) :
    checkRateLimit now (some ⟨k, r⟩) =
      (some ⟨k + 1, r⟩, ⟨true, 10 - (k + 1), r⟩) := by
  simp only [checkRateLimit, RATE_LIMIT_MAX_REQUESTS]
  rw [if_neg (by omega), if_neg (by omega)]

theorem checkRateLimit_full (now r : Nat) (h1 : now ≤ r) :
    checkRateLimit now (some ⟨10, r⟩) = (some ⟨10, r⟩, ⟨false, 0, r⟩) := by
  simp only [checkRateLimit, RATE_LIMIT_MAX_REQUESTS]
  rw [if_neg (by omega), if_pos (by omega)]

theorem checkRateLimit_expired (now r k : Nat) (h : r < now) :
    checkRateLimit now (some ⟨k, r⟩) =
      (some ⟨1, now + 60000⟩, ⟨true, 9, now + 60000⟩) := by
  simp only [checkRateLimit, RATE_LIMIT_MAX_REQUESTS, RATE_LIMIT_WINDOW_MS]
  rw [if_pos h]

theorem rlRun_cons (t : Nat) (ts : List Nat) (s : Option RateLimitEntry) :
    rlRun (t :: ts) s =
      ((rlRun ts (checkRateLimit t s).1).1,
        (checkRateLimit t s).2 :: (rlRun ts (checkRateLimit t s).1).2) := rfl


/-- C4: under the fixed 60-second window with 10 admitted requests, a fresh
identity's first 10 calls inside one window are all allowed with remaining
9, 8, ..., 0, the 11th call inside the window is rejected with remaining 0
and a reset time strictly in the future, and a call after the reset time has
passed is admitted afresh with remaining 9. -/
theorem checkRateLimit_fixed_window :
    ∀ t1 t2 t3 t4 t5 t6 t7 t8 t9 t10 t11 u : Nat,
      t2 < t1 + 60000 → t3 < t1 + 60000 → t4 < t1 + 60000 →
      t5 < t1 + 60000 → t6 < t1 + 60000 → t7 < t1 + 60000 →
      t8 < t1 + 60000 → t9 < t1 + 60000 → t10 < t1 + 60000 →
      t11 < t1 + 60000 → t1 + 60000 < u →
      (rlRun [t1, t2, t3, t4, t5, t6, t7, t8, t9, t10, t11, u] none).2 =
        [⟨true, 9, t1 + 60000⟩, ⟨true, 8, t1 + 60000⟩, ⟨true, 7, t1 + 60000⟩,
          ⟨true, 6, t1 + 60000⟩, ⟨true, 5, t1 + 60000⟩, ⟨true, 4, t1 + 60000⟩,
          ⟨true, 3, t1 + 60000⟩, ⟨true, 2, t1 + 60000⟩, ⟨true, 1, t1 + 60000⟩,
          ⟨true, 0, t1 + 60000⟩, ⟨false, 0, t1 + 60000⟩,
          ⟨true, 9, u + 60000⟩] ∧
      t11 < t1 + 60000 := by
  intro t1 t2 t3 t4 t5 t6 t7 t8 t9 t10 t11 u h2 h3 h4 h5 h6 h7 h8 h9 h10 h11 hu
  refine ⟨?_, h11⟩
  rw [rlRun_cons, checkRateLimit_fresh t1]
  dsimp only
  rw [rlRun_cons, checkRateLimit_active t2 (t1 + 60000) 1 (by omega) (by omega)]
  dsimp only
  rw [rlRun_cons, checkRateLimit_active t3 (t1 + 60000) 2 (by omega) (by omega)]
  dsimp only
  rw [rlRun_cons, checkRateLimit_active t4 (t1 + 60000) 3 (by omega) (by omega)]
  dsimp only
  rw [rlRun_cons, checkRateLimit_active t5 (t1 + 60000) 4 (by omega) (by omega)]
  dsimp only
  rw [rlRun_cons, checkRateLimit_active t6 (t1 + 60000) 5 (by omega) (by omega)]
  dsimp only
  rw [rlRun_cons, checkRateLimit_active t7 (t1 + 60000) 6 (by omega) (by omega)]
  dsimp only
  rw [rlRun_cons, checkRateLimit_active t8 (t1 + 60000) 7 (by omega) (by omega)]
  dsimp only
  rw [rlRun_cons, checkRateLimit_active t9 (t1 + 60000) 8 (by omega) (by omega)]
  dsimp only
  rw [rlRun_cons, checkRateLimit_active t10 (t1 + 60000) 9 (by omega) (by omega)]
  dsimp only
  rw [rlRun_cons, checkRateLimit_full t11 (t1 + 60000) (by omega)]
  dsimp only
  rw [rlRun_cons, checkRateLimit_expired u (t1 + 60000) 10 (by omega)]
  dsimp only
  norm_num [rlRun]

/-- Witness for C4: the 12-call scenario at concrete times 0..10 and a call
at 70000, after the window's reset time 60000. -/
theorem checkRateLimit_fixed_window_witness :
    (rlRun [0, 1, 2, 3, 4, 5, 6, 7, 8, 9, 10, 70000] none).2 =
      [⟨true, 9, 60000⟩, ⟨true, 8, 60000⟩, ⟨true, 7, 60000⟩,
        ⟨true, 6, 60000⟩, ⟨true, 5, 60000⟩, ⟨true, 4, 60000⟩,
        ⟨true, 3, 60000⟩, ⟨true, 2, 60000⟩, ⟨true, 1, 60000⟩,
        ⟨true, 0, 60000⟩, ⟨false, 0, 60000⟩, ⟨true, 9, 130000⟩] ∧
      10 < 60000 :=
  checkRateLimit_fixed_window 0 1 2 3 4 5 6 7 8 9 10 70000 (by decide)
    (by decide) (by decide) (by decide) (by decide) (by decide) (by decide)
    (by decide) (by decide) (by decide) (by decide)


/-- C3: in the retry loop of `extractTextFromImage`, an upstream API error
with status 401, 402 or 404 is terminal: one attempt, no backoff, immediate
failure with the classifier's message; a non-terminal failure on each of the
first two attempts followed by a success yields the successful parsed result
after exactly 2 backoff delays and 3 attempts. -/
theorem extractTextFromImage_retry_policy :
    (∀ (f : Nat → AttemptOutcome) (s : Nat) (ra : Option Nat) (m : List Char),
      (s = 401 ∨ s = 402 ∨ s = 404) →
      f 0 = .failure (.api s ra m) →
      extractTextRetryLoop f =
        ⟨.error (handleApiError (.api s ra m) 0), [], 1⟩) ∧
    (∀ (f : Nat → AttemptOutcome) (e1 e2 : UpstreamError)
        (t mm : List Char) (pt ct : Nat),
      isTerminalError e1 = false → isTerminalError e2 = false →
      f 0 = .failure e1 → f 1 = .failure e2 → f 2 = .success t mm pt ct →
      extractTextRetryLoop f =
        ⟨.ok (successResult t mm pt ct),
          [attemptDelay e1 0, attemptDelay e2 1], 3⟩) := by
  constructor
  · intro f s ra m hs hf
    show extractLoopGo f (2 + 1) 0 none = _
    simp only [extractLoopGo]
    rw [hf]
    rcases hs with h | h | h <;> subst h <;> simp [isTerminalError]
  · intro f e1 e2 t mm pt ct h1 h2 hf0 hf1 hf2
    show extractLoopGo f (2 + 1) 0 none = _
    simp only [extractLoopGo]
    rw [hf0, hf1, hf2]
    simp only [h1, h2, Bool.false_eq_true, if_false]
    by_cases hr1 : isRateLimited e1 <;> by_cases hr2 : isRateLimited e2 <;>
      simp [hr1, hr2, attemptDelay]

/-- Witness for C3: a constant 401 upstream fails in one attempt with no
delays; a plain transient error on attempts 0 and 1 followed by success on
attempt 2 returns the parsed result after backoffs of 1 and 2 seconds. -/
theorem extractTextFromImage_retry_policy_witness :
    extractTextRetryLoop (fun _ => .failure (.api 401 none (cs "x"))) =
      ⟨.error (handleApiError (.api 401 none (cs "x")) 0), [], 1⟩ ∧
    extractTextRetryLoop
        (fun n => if n = 0 then .failure (.plain (cs "a"))
          else if n = 1 then .failure (.plain (cs "b"))
          else .success (cs "ok") (cs "gpt-4o") 1 2) =
      ⟨.ok (successResult (cs "ok") (cs "gpt-4o") 1 2), [1000, 2000], 3⟩ :=
  ⟨extractTextFromImage_retry_policy.1 _ 401 none (cs "x") (Or.inl rfl) rfl,
    extractTextFromImage_retry_policy.2 _ (.plain (cs "a")) (.plain (cs "b"))
      (cs "ok") (cs "gpt-4o") 1 2 rfl rfl rfl rfl rfl⟩


/-- C5: `compressImageIfNeeded` never propagates an image-processing
failure: it is a total function, and whenever the metadata probe or any step
of the compression `try` block fails, the result carries the original buffer
byte-for-byte and the original MIME type. -/
theorem compressImageIfNeeded_error_fallback :
    ∀ (ops : ImageOps) (buffer : ImgBuffer) (mimeType : List Char)
      (options : ImageProcessingOptions) (e : List Char),
      (ops.meta buffer = .error e ∨
        (compressSteps ops buffer mimeType (jsOr options.maxSize MAX_IMAGE_SIZE)
          (jsOr options.maxDimension MAX_IMAGE_DIMENSION)
          (jsOr options.quality 85)).1 = .error e) →
      (compressImageIfNeeded ops buffer mimeType options).1.buffer = buffer ∧
      (compressImageIfNeeded ops buffer mimeType options).1.mimeType = mimeType := by
  intro ops buffer mimeType options e h
  have hres : (compressSteps ops buffer mimeType
      (jsOr options.maxSize MAX_IMAGE_SIZE)
      (jsOr options.maxDimension MAX_IMAGE_DIMENSION)
      (jsOr options.quality 85)).1 = .error e := by
    rcases h with h | h
    · simp [compressSteps, h]
    · exact h
  rcases hp : compressSteps ops buffer mimeType
      (jsOr options.maxSize MAX_IMAGE_SIZE)
      (jsOr options.maxDimension MAX_IMAGE_DIMENSION)
      (jsOr options.quality 85) with ⟨res, tr⟩
  rw [hp] at hres
  simp only at hres
  subst hres
  simp only [compressImageIfNeeded, hp]
  split <;> (try split) <;> (try split) <;> exact ⟨rfl, rfl⟩

/-- Witness for C5: an oracle whose every operation fails leaves a concrete
buffer and MIME type untouched. -/
theorem compressImageIfNeeded_error_fallback_witness :
    (compressImageIfNeeded
        ⟨fun _ => .error (cs "boom"), fun _ _ => .error (cs "boom")⟩
        [1, 2, 3] (cs "image/png") {}).1.buffer = [1, 2, 3] ∧
    (compressImageIfNeeded
        ⟨fun _ => .error (cs "boom"), fun _ _ => .error (cs "boom")⟩
        [1, 2, 3] (cs "image/png") {}).1.mimeType = cs "image/png" :=
  compressImageIfNeeded_error_fallback
    ⟨fun _ => .error (cs "boom"), fun _ _ => .error (cs "boom")⟩
    [1, 2, 3] (cs "image/png") {} (cs "boom") (Or.inl rfl)


/-- C6: when the compression path runs (buffer over `maxSize`) and the first
pass's output still exceeds `maxSize`: if the configured quality exceeds 50,
exactly one further pass runs, at quality `max 50 (quality - 20)` with the
resize-to-`maxDimension` step, and its output is the returned buffer; if the
quality is 50 or below, no second pass occurs and the first pass's output is
returned. -/
theorem compressImageIfNeeded_second_pass :
    ∀ (ops : ImageOps) (buffer : ImgBuffer) (mimeType : List Char)
      (options : ImageProcessingOptions) (md : ImgMeta) (buf1 : ImgBuffer),
      jsOr options.maxSize MAX_IMAGE_SIZE < bufLen buffer →
      ops.meta buffer = .ok md →
      ops.encode buffer
        (pass1Spec mimeType (bufLen buffer) (md.width.getD 0)
          (md.height.getD 0) (jsOr options.maxDimension MAX_IMAGE_DIMENSION)
          (jsOr options.quality 85)) = .ok buf1 →
      jsOr options.maxSize MAX_IMAGE_SIZE < bufLen buf1 →
      ((50 < jsOr options.quality 85 →
        ∀ (buf2 : ImgBuffer) (fm : ImgMeta),
          ops.encode buffer
            (pass2Spec (pass1Format mimeType (bufLen buffer)).2
              (jsOr options.maxDimension MAX_IMAGE_DIMENSION)
              (jsOr options.quality 85)) = .ok buf2 →
          ops.meta buf2 = .ok fm →
          compressImageIfNeeded ops buffer mimeType options =
            (⟨buf2, (pass1Format mimeType (bufLen buffer)).2,
                fm.width, fm.height⟩,
              [pass1Spec mimeType (bufLen buffer) (md.width.getD 0)
                  (md.height.getD 0)
                  (jsOr options.maxDimension MAX_IMAGE_DIMENSION)
                  (jsOr options.quality 85),
                pass2Spec (pass1Format mimeType (bufLen buffer)).2
                  (jsOr options.maxDimension MAX_IMAGE_DIMENSION)
                  (jsOr options.quality 85)]) ∧
          (pass2Spec (pass1Format mimeType (bufLen buffer)).2
              (jsOr options.maxDimension MAX_IMAGE_DIMENSION)
              (jsOr options.quality 85)).quality =
            max 50 (jsOr options.quality 85 - 20) ∧
          (pass2Spec (pass1Format mimeType (bufLen buffer)).2
              (jsOr options.maxDimension MAX_IMAGE_DIMENSION)
              (jsOr options.quality 85)).resized = true) ∧
        (jsOr options.quality 85 ≤ 50 →
          ∀ fm : ImgMeta, ops.meta buf1 = .ok fm →
            compressImageIfNeeded ops buffer mimeType options =
              (⟨buf1, (pass1Format mimeType (bufLen buffer)).2,
                  fm.width, fm.height⟩,
                [pass1Spec mimeType (bufLen buffer) (md.width.getD 0)
                    (md.height.getD 0)
                    (jsOr options.maxDimension MAX_IMAGE_DIMENSION)
                    (jsOr options.quality 85)]))) := by
  intro ops buffer mimeType options md buf1 hsz hmeta he1 hbig
  constructor
  · intro hq buf2 fm he2 hm2
    refine ⟨?_, rfl, rfl⟩
    simp only [compressImageIfNeeded]
    rw [if_neg (by omega)]
    simp only [compressSteps, hmeta]
    rw [he1]
    dsimp only
    rw [if_pos ⟨hbig, hq⟩, he2]
    dsimp only
    rw [hm2]
  · intro hq fm hm1
    simp only [compressImageIfNeeded]
    rw [if_neg (by omega)]
    simp only [compressSteps, hmeta]
    rw [he1]
    dsimp only
    rw [if_neg (by omega), hm1]

/-- Witness for C6: a concrete oracle whose first pass (quality 85) stays
over a 50-byte `maxSize` runs a second pass at quality 65 whose output is
returned, with exactly two logged passes. -/
theorem compressImageIfNeeded_second_pass_witness :
    compressImageIfNeeded
        ⟨fun _ => .ok ⟨some 4000, some 3000⟩,
          fun _ s =>
            if s.quality = 85 then .ok (List.replicate 60 0) else .ok [9]⟩
        (List.replicate 100 1) (cs "image/jpeg")
        ⟨some 50, some 2048, some 85⟩ =
      (⟨[9], cs "image/jpeg", some 4000, some 3000⟩,
        [⟨true, 2048, some .jpeg, 85⟩, ⟨true, 2048, some .jpeg, 65⟩]) :=
  ((compressImageIfNeeded_second_pass
      ⟨fun _ => .ok ⟨some 4000, some 3000⟩,
        fun _ s =>
          if s.quality = 85 then .ok (List.replicate 60 0) else .ok [9]⟩
      (List.replicate 100 1) (cs "image/jpeg") ⟨some 50, some 2048, some 85⟩
      ⟨some 4000, some 3000⟩ (List.replicate 60 0) (by decide) rfl rfl
      (by decide)).1 (by decide) [9] ⟨some 4000, some 3000⟩ rfl rfl).1

theorem groupToRat_nonneg (g : List Char × List Char) : 0 ≤ groupToRat g := by
  unfold groupToRat
  positivity

/-- Counterexample to C1: the response `CONFIDENCE: 150` makes the parser
return confidence 150, outside [0, 100] — the marker value is passed to
`parseFloat` unclamped. -/
theorem parse_confidence_unclamped_counterexample :
    (parseExtractionResponse
        (cs "Hi there\nLANGUAGE: en\nCONFIDENCE: 150")).confidence = 150 ∧
    ¬ (parseExtractionResponse
        (cs "Hi there\nLANGUAGE: en\nCONFIDENCE: 150")).confidence ≤ 100 := by
  have h : (parseExtractionResponse
      (cs "Hi there\nLANGUAGE: en\nCONFIDENCE: 150")).confidence =
      groupToRat (cs "150", []) := rfl
  have hd : digitsToNat (cs "150") = 150 := by decide
  have hd0 : digitsToNat ([] : List Char) = 0 := rfl
  have hg : groupToRat (cs "150", []) = 150 := by
    simp [groupToRat, hd, hd0]
  rw [h, hg]
  norm_num

/-- C1 (amended): the parser's confidence is always nonnegative, and lies in
[0, 100] whenever no `CONFIDENCE:` marker matches (the clamped heuristic
path); when a marker matches, the parsed marker value is returned as-is,
unclamped. -/
theorem parseExtractionResponse_confidence_range :
    ∀ text : List Char,
      0 ≤ (parseExtractionResponse text).confidence ∧
      (findConf text = none →
        0 ≤ (parseExtractionResponse text).confidence ∧
        (parseExtractionResponse text).confidence ≤ 100) ∧
      (∀ pre g rest, findConf text = some (pre, g, rest) →
        (parseExtractionResponse text).confidence = groupToRat g) := by
  intro text
  rcases hcase : findConf text with _ | ⟨pre, g, rest⟩
  · refine ⟨?_, fun _ => ⟨?_, ?_⟩, fun pre g rest h => Option.noConfusion h⟩
    · simp only [parseExtractionResponse, hcase]
      exact_mod_cast estimateConfidence_nonneg _
    · simp only [parseExtractionResponse, hcase]
      exact_mod_cast estimateConfidence_nonneg _
    · simp only [parseExtractionResponse, hcase]
      exact_mod_cast estimateConfidence_le _
  · refine ⟨?_, fun h => Option.noConfusion h, fun pre2 g2 rest2 h => ?_⟩
    · simp only [parseExtractionResponse, hcase]
      exact groupToRat_nonneg g
    · injection h with h2
      cases h2
      simp only [parseExtractionResponse, hcase]

/-- Witness for C1 (amended): a marker-free response gets an in-range
confidence. -/
theorem parseExtractionResponse_confidence_range_witness :
    0 ≤ (parseExtractionResponse (cs "Hello")).confidence ∧
    (parseExtractionResponse (cs "Hello")).confidence ≤ 100 :=
  (parseExtractionResponse_confidence_range (cs "Hello")).2.1 (by decide)

theorem stripCI_append_cases (pat b zs r : List Char)
    (h : stripCI pat (b ++ zs) = some r) :
    (∃ r2, stripCI pat b = some r2 ∧ r = r2 ++ zs) ∨
    (b.length < pat.length ∧ stripCI (pat.drop b.length) zs = some r) := by
  induction b generalizing pat with
  | nil =>
    cases pat with
    | nil =>
      left
      exact ⟨[], rfl, (Option.some.inj h).symm⟩
    | cons p ps =>
      right
      exact ⟨by simp, by simpa using h⟩
  | cons c b2 ih =>
    cases pat with
    | nil =>
      left
      exact ⟨c :: b2, rfl, (Option.some.inj h).symm⟩
    | cons p ps =>
      simp only [List.cons_append, stripCI] at h
      by_cases hc : ciEq p c
      · rw [if_pos hc] at h
        rcases ih ps h with ⟨r2, hr2, hr⟩ | ⟨hlen, hs⟩
        · left
          exact ⟨r2, by simp [stripCI, hc, hr2], hr⟩
        · right
          exact ⟨by simpa using Nat.succ_lt_succ hlen, by simpa using hs⟩
      · rw [if_neg hc] at h
        cases h

theorem stripCI_none_of_short (pat b : List Char)
    (h : b.length < pat.length) : stripCI pat b = none := by
  induction b generalizing pat with
  | nil =>
    cases pat with
    | nil => simp at h
    | cons p ps => rfl
  | cons c b2 ih =>
    cases pat with
    | nil => simp at h
    | cons p ps =>
      simp only [stripCI]
      split
      · exact ih ps (by simpa using h)
      · rfl

theorem occursCI_suffix (pat l b : List Char) (h : occursCI pat l = false)
    (hb : b <:+ l) : stripCI pat b = none := by
  induction l with
  | nil =>
    rw [List.suffix_nil.mp hb]
    cases hs : stripCI pat [] with
    | none => rfl
    | some r =>
      exfalso
      simp [occursCI, hs] at h
  | cons c l2 ih =>
    simp only [occursCI, Bool.or_eq_false_iff] at h
    rcases List.suffix_cons_iff.mp hb with hb2 | hb2
    · subst hb2
      cases hs : stripCI pat (c :: l2) with
      | none => rfl
      | some r =>
        exfalso
        rw [hs] at h
        simp at h
    · exact ih h.2 hb2

theorem stripCI_drop_newline (pat : List Char)
    (hp : ∀ c ∈ pat, ciEq c '\n' = false) (k : Nat) (hk : k < pat.length)
    (zs : List Char) : stripCI (pat.drop k) ('\n' :: zs) = none := by
  rw [List.drop_eq_getElem_cons hk]
  simp only [stripCI]
  rw [if_neg]
  simp only [Bool.not_eq_true]
  exact hp _ (List.getElem_mem hk)

theorem stripCI_boundary_none (pat body zs b : List Char)
    (hocc : occursCI pat body = false)
    (hp : ∀ c ∈ pat, ciEq c '\n' = false)
    (hb : b <:+ body) :
    stripCI pat (b ++ '\n' :: zs) = none := by
  cases hs : stripCI pat (b ++ '\n' :: zs) with
  | none => rfl
  | some r =>
    exfalso
    rcases stripCI_append_cases pat b ('\n' :: zs) r hs with ⟨r2, hr2, _⟩ | ⟨hlen, h2⟩
    · rw [occursCI_suffix pat body b hocc hb] at hr2
      cases hr2
    · rw [stripCI_drop_newline pat hp b.length hlen zs] at h2
      cases h2

theorem stripCI_short_boundary (pat b zs : List Char)
    (hlen : b.length < pat.length)
    (hp : ∀ c ∈ pat, ciEq c '\n' = false) :
    stripCI pat (b ++ '\n' :: zs) = none := by
  cases hs : stripCI pat (b ++ '\n' :: zs) with
  | none => rfl
  | some r =>
    exfalso
    rcases stripCI_append_cases pat b ('\n' :: zs) r hs with ⟨r2, hr2, _⟩ | ⟨_, h2⟩
    · rw [stripCI_none_of_short pat b hlen] at hr2
      cases hr2
    · rw [stripCI_drop_newline pat hp b.length hlen zs] at h2
      cases h2
theorem findSeg_head_some {α : Type} (tryAt : List Char → Option (α × List Char))
    (l : List Char) (a : α) (r : List Char) (h : tryAt l = some (a, r)) :
    findSeg tryAt l = some ([], a, r) := by
  cases l with
  | nil => simp [findSeg, h]
  | cons c rest => simp [findSeg, h]

theorem findSeg_cons_none {α : Type} (tryAt : List Char → Option (α × List Char))
    (c : Char) (rest : List Char) (h : tryAt (c :: rest) = none) :
    findSeg tryAt (c :: rest) =
      (findSeg tryAt rest).map fun par => (c :: par.1, par.2.1, par.2.2) := by
  simp [findSeg, h]

theorem findSeg_append {α : Type} (tryAt : List Char → Option (α × List Char))
    (xs ys : List Char)
    (h : ∀ b, b <:+ xs → b ≠ [] → tryAt (b ++ ys) = none) :
    findSeg tryAt (xs ++ ys) =
      (findSeg tryAt ys).map fun par => (xs ++ par.1, par.2.1, par.2.2) := by
  induction xs with
  | nil =>
    cases hf : findSeg tryAt ys with
    | none => simp [hf]
    | some par => simp [hf]
  | cons x xs2 ih =>
    have h0 : tryAt ((x :: xs2) ++ ys) = none :=
      h (x :: xs2) (List.suffix_refl _) (by simp)
    rw [List.cons_append, findSeg_cons_none tryAt x (xs2 ++ ys) h0]
    rw [ih (fun b hb hne => h b (hb.trans (List.suffix_cons x xs2)) hne)]
    cases findSeg tryAt ys with
    | none => rfl
    | some par => rfl

theorem takeWhile_append_stop (p : Char → Bool) (xs : List Char) (y : Char)
    (ys : List Char) (hx : ∀ x ∈ xs, p x = true) (hy : p y = false) :
    (xs ++ y :: ys).takeWhile p = xs := by
  induction xs with
  | nil => simp [List.takeWhile_cons, hy]
  | cons a xs2 ih =>
    simp only [List.cons_append, List.takeWhile_cons, hx a (by simp), if_true]
    rw [ih (fun x hxm => hx x (by simp [hxm]))]

theorem dropWhile_append_stop (p : Char → Bool) (xs : List Char) (y : Char)
    (ys : List Char) (hx : ∀ x ∈ xs, p x = true) (hy : p y = false) :
    (xs ++ y :: ys).dropWhile p = y :: ys := by
  induction xs with
  | nil => simp [List.dropWhile_cons, hy]
  | cons a xs2 ih =>
    simp only [List.cons_append, List.dropWhile_cons, hx a (by simp), if_true]
    exact ih (fun x hxm => hx x (by simp [hxm]))

theorem takeWhile_all (p : Char → Bool) (xs : List Char)
    (hx : ∀ x ∈ xs, p x = true) : xs.takeWhile p = xs := by
  induction xs with
  | nil => rfl
  | cons a xs2 ih =>
    simp only [List.takeWhile_cons, hx a (by simp), if_true]
    rw [ih (fun x hxm => hx x (by simp [hxm]))]

theorem alpha_not_ws (c : Char) (h : isAsciiAlpha c = true) :
    isJsWs c = false := by
  simp only [isAsciiAlpha, inRange, Bool.or_eq_true, decide_eq_true_eq] at h
  simp only [isJsWs, decide_eq_false_iff_not]
  omega

theorem digit_not_ws (c : Char) (h : isDigitCh c = true) :
    isJsWs c = false := by
  simp only [isDigitCh, inRange, decide_eq_true_eq] at h
  simp only [isJsWs, decide_eq_false_iff_not]
  omega

theorem tryLangAt_marker (code zs : List Char)
    (h2 : 2 ≤ code.length) (h3 : code.length ≤ 3)
    (hcode : ∀ c ∈ code, isAsciiAlpha c = true) :
    tryLangAt (cs "LANGUAGE: " ++ (code ++ '\n' :: 'C' :: zs)) =
      some (code, 'C' :: zs) := by
  have hstrip : stripCI (cs "language:")
      (cs "LANGUAGE: " ++ (code ++ '\n' :: 'C' :: zs)) =
      some (' ' :: (code ++ '\n' :: 'C' :: zs)) := rfl
  unfold tryLangAt
  rw [hstrip]
  cases code with
  | nil => simp at h2
  | cons c0 code2 =>
    have hws : (' ' :: (c0 :: code2 ++ '\n' :: 'C' :: zs)).dropWhile isJsWs =
        c0 :: code2 ++ '\n' :: 'C' :: zs := by
      rw [List.dropWhile_cons_of_pos (by decide)]
      exact List.dropWhile_cons_of_neg (by
        simp [alpha_not_ws c0 (hcode c0 (by simp))])
    simp only [hws]
    have htk : ((c0 :: code2) ++ '\n' :: 'C' :: zs).takeWhile isAsciiAlpha =
        c0 :: code2 :=
      takeWhile_append_stop isAsciiAlpha (c0 :: code2) '\n' ('C' :: zs) hcode
        (by decide)
    rw [htk]
    rw [List.take_of_length_le h3]
    rw [if_pos h2]
    rw [List.drop_left (c0 :: code2) ('\n' :: 'C' :: zs)]
    rw [List.dropWhile_cons_of_pos (by decide),
      List.dropWhile_cons_of_neg (by decide)]

theorem tryConfAt_marker (digits : List Char) (hne : digits ≠ [])
    (hd : ∀ c ∈ digits, isDigitCh c = true) :
    tryConfAt (cs "CONFIDENCE: " ++ digits) = some ((digits, []), []) := by
  have hstrip : stripCI (cs "confidence:") (cs "CONFIDENCE: " ++ digits) =
      some (' ' :: digits) := rfl
  unfold tryConfAt
  rw [hstrip]
  cases digits with
  | nil => simp at hne
  | cons d0 ds2 =>
    have hws : (' ' :: d0 :: ds2).dropWhile isJsWs = d0 :: ds2 := by
      rw [List.dropWhile_cons_of_pos (by decide)]
      exact List.dropWhile_cons_of_neg (by
        simp [digit_not_ws d0 (hd d0 (by simp))])
    simp only [hws]
    have htk : (d0 :: ds2).takeWhile isDigitCh = d0 :: ds2 :=
      takeWhile_all isDigitCh (d0 :: ds2) hd
    simp only [htk]
    rw [if_neg (by simp)]
    rw [List.drop_length]
    rfl

theorem trimEndJS_ws (l : List Char) : trimEndJS (l ++ ['\n']) = trimEndJS l := by
  unfold trimEndJS
  rw [List.reverse_append]
  simp only [List.reverse_cons, List.reverse_nil, List.nil_append,
    List.singleton_append]
  rw [List.dropWhile_cons_of_pos (by decide)]

theorem trimJS_ws (l : List Char) : trimJS (l ++ ['\n']) = trimJS l := by
  unfold trimJS
  rw [List.dropWhile_append]
  split
  · next hemp =>
    rw [List.isEmpty_iff.mp hemp]
    rfl
  · exact trimEndJS_ws _

theorem map_asciiLower_lower (l : List Char)
    (h : ∀ c ∈ l, inRange 97 122 c = true) : l.map asciiLower = l := by
  induction l with
  | nil => rfl
  | cons c l2 ih =>
    have hc : inRange 65 90 c = false := by
      have := h c (by simp)
      simp only [inRange, decide_eq_true_eq, decide_eq_false_iff_not] at *
      omega
    simp only [List.map_cons, asciiLower, hc, Bool.false_eq_true, if_false,
      ih (fun x hx => h x (by simp [hx]))]

theorem tryLangAt_none_of_strip (l : List Char)
    (h : stripCI (cs "language:") l = none) : tryLangAt l = none := by
  unfold tryLangAt
  rw [h]

theorem tryConfAt_none_of_strip (l : List Char)
    (h : stripCI (cs "confidence:") l = none) : tryConfAt l = none := by
  unfold tryConfAt
  rw [h]

theorem parse_markerSuffix_eq (body code digits : List Char)
    (hLb : occursCI (cs "language:") body = false)
    (hCb : occursCI (cs "confidence:") body = false)
    (h2 : 2 ≤ code.length) (h3 : code.length ≤ 3)
    (hlow : ∀ c ∈ code, inRange 97 122 c = true)
    (hdne : digits ≠ []) (hdig : ∀ c ∈ digits, isDigitCh c = true) :
    parseExtractionResponse
      (body ++ '\n' :: (cs "LANGUAGE: " ++ (code ++ '\n' ::
        (cs "CONFIDENCE: " ++ digits)))) =
      ⟨trimJS body, code, groupToRat (digits, [])⟩ := by
  have halpha : ∀ c ∈ code, isAsciiAlpha c = true := by
    intro c hc
    simp [isAsciiAlpha, hlow c hc]
  have hpL : ∀ c ∈ cs "language:", ciEq c '\n' = false := by decide
  have hpC : ∀ c ∈ cs "confidence:", ciEq c '\n' = false := by decide
  -- abbreviations (plain terms, repeated)
  -- N := cs "CONFIDENCE: " ++ digits
  -- M := cs "LANGUAGE: " ++ (code ++ '\n' :: N)
  -- step A: the language marker's first match
  have hA1 : ∀ b, b <:+ body → b ≠ [] →
      tryLangAt (b ++ '\n' :: (cs "LANGUAGE: " ++ (code ++ '\n' ::
        (cs "CONFIDENCE: " ++ digits)))) = none := by
    intro b hb _
    exact tryLangAt_none_of_strip _
      (stripCI_boundary_none (cs "language:") body _ b hLb hpL hb)
  have hA4 : tryLangAt (cs "LANGUAGE: " ++ (code ++ '\n' ::
      (cs "CONFIDENCE: " ++ digits))) =
      some (code, cs "CONFIDENCE: " ++ digits) :=
    tryLangAt_marker code (cs "ONFIDENCE: " ++ digits) h2 h3 halpha
  have hLang : findSeg tryLangAt (body ++ '\n' :: (cs "LANGUAGE: " ++
      (code ++ '\n' :: (cs "CONFIDENCE: " ++ digits)))) =
      some (body ++ ['\n'], code, cs "CONFIDENCE: " ++ digits) := by
    rw [findSeg_append tryLangAt body _ hA1]
    rw [findSeg_cons_none tryLangAt '\n' _ (tryLangAt_none_of_strip _ rfl)]
    rw [findSeg_head_some tryLangAt _ code _ hA4]
    rfl
  -- step B: the confidence marker's first match in the full text
  have hB1 : ∀ (zs : List Char) b, b <:+ body → b ≠ [] →
      tryConfAt (b ++ '\n' :: zs) = none := by
    intro zs b hb _
    exact tryConfAt_none_of_strip _
      (stripCI_boundary_none (cs "confidence:") body zs b hCb hpC hb)
  have hB4h : ∀ b, b <:+ cs "LANGUAGE: " → b ≠ [] →
      tryConfAt (b ++ (code ++ '\n' :: (cs "CONFIDENCE: " ++ digits))) =
        none := by
    intro b hb hne
    have hmem : b ∈ (cs "LANGUAGE: ").tails := (List.mem_tails b _).mpr hb
    fin_cases hmem
    · rfl
    · rfl
    · rfl
    · rfl
    · rfl
    · rfl
    · rfl
    · rfl
    · rfl
    · rfl
    · exact absurd rfl hne
  have hB5h : ∀ b, b <:+ code → b ≠ [] →
      tryConfAt (b ++ '\n' :: (cs "CONFIDENCE: " ++ digits)) = none := by
    intro b hb _
    refine tryConfAt_none_of_strip _
      (stripCI_short_boundary (cs "confidence:") b _ ?_ hpC)
    have h1 := hb.length_le
    have hlen11 : (cs "confidence:").length = 11 := rfl
    omega
  have hB7 : findSeg tryConfAt (cs "CONFIDENCE: " ++ digits) =
      some ([], (digits, []), []) :=
    findSeg_head_some tryConfAt _ _ _ (tryConfAt_marker digits hdne hdig)
  have hConf : findSeg tryConfAt (body ++ '\n' :: (cs "LANGUAGE: " ++
      (code ++ '\n' :: (cs "CONFIDENCE: " ++ digits)))) =
      some (body ++ '\n' :: (cs "LANGUAGE: " ++ (code ++ ['\n'])),
        (digits, []), []) := by
    rw [findSeg_append tryConfAt body _ (hB1 _)]
    rw [findSeg_cons_none tryConfAt '\n' _ (tryConfAt_none_of_strip _ rfl)]
    rw [findSeg_append tryConfAt (cs "LANGUAGE: ") _ hB4h]
    rw [findSeg_append tryConfAt code _ hB5h]
    rw [findSeg_cons_none tryConfAt '\n' _ (tryConfAt_none_of_strip _ rfl)]
    rw [hB7]
    rfl
  -- step D: the confidence marker's first match after language removal
  have hD : findSeg tryConfAt ((body ++ ['\n']) ++
      (cs "CONFIDENCE: " ++ digits)) =
      some (body ++ ['\n'], (digits, []), []) := by
    rw [List.append_assoc]
    show findSeg tryConfAt (body ++ '\n' :: (cs "CONFIDENCE: " ++ digits)) = _
    rw [findSeg_append tryConfAt body _ (hB1 _)]
    rw [findSeg_cons_none tryConfAt '\n' _ (tryConfAt_none_of_strip _ rfl)]
    rw [hB7]
    rfl
  -- assemble
  simp only [parseExtractionResponse, findLang, findConf, hLang, hConf, hD]
  simp only [List.append_nil]
  rw [trimJS_ws body]
  rw [map_asciiLower_lower code hlow]

theorem parse_noMarker_eq (text : List Char)
    (hL : findLang text = none) (hC : findConf text = none)
    (ht : trimJS text = text) :
    parseExtractionResponse text =
      ⟨text, detectLanguageFromText text,
        ((estimateConfidence text : Int) : ℚ)⟩ := by
  simp only [parseExtractionResponse, hL, hC, ht]

/-- Counterexample to C2: in a response containing both marker lines, an
earlier incidental match of the language pattern inside the body is what the
single (non-global) replacement removes, so the body text is altered and the
true `LANGUAGE: en` marker line survives into the returned extracted
text. -/
theorem parse_marker_leak_counterexample :
    (parseExtractionResponse
        (cs "Use LANGUAGE: fr for the UI\nLANGUAGE: en\nCONFIDENCE: 97")
      ).extractedText = cs "Use for the UI\nLANGUAGE: en" ∧
    occursIn (cs "LANGUAGE:")
      (parseExtractionResponse
        (cs "Use LANGUAGE: fr for the UI\nLANGUAGE: en\nCONFIDENCE: 97")
      ).extractedText = true := by
  constructor
  · decide
  · decide

/-- C2 (amended): the parser removes the first match of each marker pattern.
Hence (i) for every response of the canonical form
`body \n LANGUAGE: code \n CONFIDENCE: digits` — markers on trailing lines,
with no case-insensitive occurrence of either label in the body — parsing
removes both marker lines entirely and returns the body unchanged up to
trimming, with the marker's language and confidence; and (ii) every
already-trimmed text with no marker match is returned verbatim with the
heuristic language (default `en`) and heuristic confidence. -/
theorem parseExtractionResponse_marker_roundtrip :
    (∀ body code digits : List Char,
      occursCI (cs "language:") body = false →
      occursCI (cs "confidence:") body = false →
      2 ≤ code.length → code.length ≤ 3 →
      (∀ c ∈ code, inRange 97 122 c = true) →
      digits ≠ [] → (∀ c ∈ digits, isDigitCh c = true) →
      parseExtractionResponse
        (body ++ '\n' :: (cs "LANGUAGE: " ++ (code ++ '\n' ::
          (cs "CONFIDENCE: " ++ digits)))) =
        ⟨trimJS body, code, groupToRat (digits, [])⟩) ∧
    (∀ text : List Char,
      findLang text = none → findConf text = none → trimJS text = text →
      parseExtractionResponse text =
        ⟨text, detectLanguageFromText text,
          ((estimateConfidence text : Int) : ℚ)⟩) :=
  ⟨parse_markerSuffix_eq, parse_noMarker_eq⟩

/-- Witness for C2: the canonical response `INVOICE #1023` with trailing
`LANGUAGE: en` and `CONFIDENCE: 97` marker lines parses to that text, `en`,
and 97. -/
theorem parseExtractionResponse_marker_roundtrip_witness :
    parseExtractionResponse
        (cs "INVOICE #1023" ++ '\n' :: (cs "LANGUAGE: " ++ (cs "en" ++ '\n' ::
          (cs "CONFIDENCE: " ++ cs "97")))) =
      ⟨trimJS (cs "INVOICE #1023"), cs "en", groupToRat (cs "97", [])⟩ :=
  parseExtractionResponse_marker_roundtrip.1 (cs "INVOICE #1023") (cs "en") (cs "97") (by decide) (by decide)
    (by decide) (by decide) (by decide) (by decide) (by decide)

end ScreenshotToText
